import Mathlib

/-!
Verification of `scripts/python/extract_test_elements.py`.

The program parses an HTML document with a tolerant parser, walks every
element carrying the `data-test-id` attribute, keeps those whose value
begins with `e2e-`, builds one ordered record per kept element and
serializes the resulting list as JSON with two-space indentation.

The embedding below models the parsed document as a tree of nodes, the
record as an ordered association list, and the serializer as the exact
textual JSON layout produced by `json.dumps(..., indent=2)`.
-/

namespace Extract

/-- A node of the parsed HTML tree: either an element (tag name, attributes
in order, children) or a text node.  Mirrors the duck-typed element model
of the parser library used by the source (§9 of the spec): tag names and
attribute names are lower-cased by the parser. -/
inductive Node where
  | element : String → List (String × String) → List Node → Node
  | text : String → Node

/-- Tag name of a node (`element.name` in the source; text nodes have no
name and never reach the attribute-based queries). -/
def Node.name : Node → String
  | .element n _ _ => n
  | .text _ => ""

/-- Attribute list of a node. -/
def Node.attrs : Node → List (String × String)
  | .element _ a _ => a
  | .text _ => []

/-- Children of a node. -/
def Node.children : Node → List Node
  | .element _ _ c => c
  | .text _ => []

/-- `element.get(key)`: the value of attribute `key`, if present.  The
parser builds one entry per attribute name, so first-match lookup agrees
with the dict lookup of the source. -/
def getAttr (el : Node) (key : String) : Option String :=
  (el.attrs.find? (fun p => p.1 == key)).map Prod.snd

mutual
/-- All element nodes of a subtree in document order (depth-first,
self before children): the order `soup.find_all` visits elements. -/
def elemsOf : Node → List Node
  | Node.text _ => []
  | Node.element n a c => Node.element n a c :: elemsList c
/-- All element nodes of a forest in document order. -/
def elemsList : List Node → List Node
  | [] => []
  | x :: xs => elemsOf x ++ elemsList xs
end

mutual
/-- The text fragments of a subtree in document order (the `strings` of
the element, used by `get_text`). -/
def stringsOf : Node → List String
  | Node.text s => [s]
  | Node.element _ _ c => stringsList c
/-- The text fragments of a forest in document order. -/
def stringsList : List Node → List String
  | [] => []
  | x :: xs => stringsOf x ++ stringsList xs
end

/-- Whitespace stripped by Python `str.strip()` (ASCII part; `strip`
also removes other Unicode whitespace, which the documents at hand do
not contain). -/
def isPyWS (c : Char) : Bool :=
  c = ' ' || c = '\t' || c = '\n' || c = '\r' || c = '\x0b' || c = '\x0c'

/-- Python `s.strip()`. -/
def pyStrip (s : String) : String :=
  String.mk (((s.toList.dropWhile isPyWS).reverse.dropWhile isPyWS).reverse)

/-- `element.get_text(strip=True)`: each text fragment stripped, empty
fragments dropped, the rest joined with the empty separator — which is
the same as joining all stripped fragments. -/
def getTextStrip (el : Node) : String :=
  String.join ((stringsOf el).map pyStrip)

/-- Python `s.startswith(p)`: the characters of `p` are an initial
segment of the characters of `s` (structurally recursive form of
`String.startsWith`). -/
def strStartsWith (s p : String) : Bool :=
  p.toList.isPrefixOf s.toList

/-- Lower-casing a string character by character (structurally recursive
form of `String.toLower`, the normalization the parser applies to tag
and attribute names). -/
def strToLower (s : String) : String :=
  String.mk (s.toList.map Char.toLower)

/-- Python truthiness filter on an optional string: `if v:` keeps exactly
the non-`None`, non-empty values. -/
def truthy (v : Option String) : Option String :=
  match v with
  | some s => if s.isEmpty then none else some s
  | none => none

/-- One conditional record entry: the source's
`if v: element_info[key] = v` pattern. -/
def optEntry (key : String) (v : Option String) : List (String × String) :=
  match truthy v with
  | some s => [(key, s)]
  | none => []

/-- `soup.find("label", attrs={"for": idv})`: the first element in
document order whose tag name is `label` and whose `for` attribute equals
`idv` exactly. -/
def findLabelFor (doc : List Node) (idv : String) : Option Node :=
  (elemsList doc).find? (fun el => el.name == "label" && getAttr el "for" == some idv)

/-- The source's label lookup (lines 38–43): only run when the element's
`id` is truthy; yields the stripped text of the first matching `<label>`,
if one exists. -/
def labelRaw (doc : List Node) (el : Node) : Option String :=
  match getAttr el "id" with
  | some i =>
      if i.isEmpty then none
      else
        match findLabelFor doc i with
        | some lab => some (getTextStrip lab)
        | none => none
  | none => none

/-- The record built for one qualifying element (lines 14–43): the
required `test_id` entry followed by the conditional entries in the
source's fixed insertion order. -/
def buildRecord (doc : List Node) (el : Node) : List (String × String) :=
  [("test_id", (getAttr el "data-test-id").getD "")]
  ++ optEntry "tag" (some el.name)
  ++ optEntry "type" (getAttr el "type")
  ++ optEntry "text" (some (getTextStrip el))
  ++ optEntry "aria_label" (getAttr el "aria-label")
  ++ optEntry "placeholder" (getAttr el "placeholder")
  ++ optEntry "label" (labelRaw doc el)

/-- The source's guard (line 12): `if test_id and test_id.startswith("e2e-")`. -/
def codeQualifies (el : Node) : Bool :=
  let test_id := (getAttr el "data-test-id").getD ""
  !test_id.isEmpty && strStartsWith test_id "e2e-"

/-- Spec-side qualification (P1): the element carries the test-identifier
attribute with a value beginning with `e2e-`. -/
def specQualifies (el : Node) : Bool :=
  match getAttr el "data-test-id" with
  | some v => strStartsWith v "e2e-"
  | none => false

/-- The extraction loop (lines 9–45): `find_all(attrs={"data-test-id": True})`
filters for attribute presence, then the guard keeps the `e2e-` values and
one record is appended per kept element, in traversal order. -/
def extractRecords (doc : List Node) : List (List (String × String)) :=
  ((elemsList doc).filter (fun el => (getAttr el "data-test-id").isSome)).filterMap
    (fun el => if codeQualifies el then some (buildRecord doc el) else none)

/-- Lower-case hexadecimal digit, as Python's `\uXXXX` escapes use. -/
def hexDigit (n : Nat) : Char :=
  if n < 10 then Char.ofNat (48 + n) else Char.ofNat (97 + (n - 10))

/-- A `\uXXXX` escape for a code unit. -/
def uEscape (n : Nat) : String :=
  String.mk ['\\', 'u', hexDigit (n / 4096 % 16), hexDigit (n / 256 % 16),
             hexDigit (n / 16 % 16), hexDigit (n % 16)]

/-- JSON escaping of one character, following `json.dumps` with its
default `ensure_ascii=True`: quote and backslash escaped, the short
escapes for the usual control characters, `\uXXXX` for the remaining
control and all non-ASCII characters (surrogate pairs above the BMP). -/
def jsonEscapeChar (c : Char) : String :=
  if c.toNat = 34 then "\\\""
  else if c = '\\' then "\\\\"
  else if c = '\n' then "\\n"
  else if c = '\r' then "\\r"
  else if c = '\t' then "\\t"
  else if c.toNat = 8 then "\\b"
  else if c.toNat = 12 then "\\f"
  else if c.toNat < 32 then uEscape c.toNat
  else if c.toNat < 127 then String.singleton c
  else if c.toNat < 65536 then uEscape c.toNat
  else
    uEscape (55296 + (c.toNat - 65536) / 1024) ++ uEscape (56320 + (c.toNat - 65536) % 1024)

/-- A JSON string literal. -/
def jsonStr (s : String) : String :=
  "\"" ++ String.join (s.toList.map jsonEscapeChar) ++ "\""

/-- One record rendered by `json.dumps(..., indent=2)` at depth 1 inside
the array: entries on their own lines at four spaces, closing brace at
two. -/
def dumpRecord (r : List (String × String)) : String :=
  match r with
  | [] => "\x7b\x7d"
  | _ =>
    "\x7b\n"
      ++ String.intercalate ",\n"
           (r.map (fun kv => "    " ++ jsonStr kv.1 ++ ": " ++ jsonStr kv.2))
      ++ "\n  \x7d"

/-- `json.dumps(records, indent=2)` (line 46): the empty list collapses
to `[]`; otherwise each record sits on its own two-space-indented line. -/
def dumps (rs : List (List (String × String))) : String :=
  match rs with
  | [] => "[]"
  | _ => "[\n" ++ String.intercalate ",\n" (rs.map (fun r => "  " ++ dumpRecord r)) ++ "\n]"

/-! Modelled from the spec: the lenient HTML parsing step.  The source
delegates parsing to a third-party tolerant parser
(`BeautifulSoup(html_content, "html.parser")`), whose code is not part of
this repository; §4 of the spec requires only that the text is parsed
"into a tree using a lenient parser" that "absorbs structural errors":
unclosed tags are closed at end of input, stray end tags are ignored,
tag and attribute names are lower-cased, void elements take no children.
The model below is a total tokenizer and tree builder with exactly that
tolerant behavior. -/

/-- The double-quote character (kept out of character-literal syntax). -/
def quoteChar : Char := Char.ofNat 34

/-- The apostrophe character. -/
def aposChar : Char := Char.ofNat 39

/-- Whitespace inside a tag. -/
def isTagWS (c : Char) : Bool :=
  c = ' ' || c = '\t' || c = '\n' || c = '\r' || c = '\x0c'

/-- A token of the markup stream. -/
inductive Tok where
  | text : String → Tok
  | start : String → List (String × String) → Bool → Tok
  | stop : String → Tok

/-- Scan a tag name: everything up to whitespace, `/` or `>`. -/
def scanTagName (cs : List Char) : String × List Char :=
  let name := cs.takeWhile (fun c => !(isTagWS c || c = '/' || c = '>'))
  (String.mk name, cs.drop name.length)

/-- Drop everything up to and including the next `>`. -/
def dropToGt (cs : List Char) : List Char :=
  (cs.dropWhile (fun c => !(c = '>'))).drop 1

/-- Drop everything up to and including the next `-->` (comment end);
tolerant at end of input. -/
def dropCommentEnd : Nat → List Char → List Char
  | 0, cs => cs
  | _ + 1, [] => []
  | fuel + 1, c :: cs =>
      match c, cs with
      | '-', '-' :: '>' :: rest => rest
      | _, _ => dropCommentEnd fuel cs

/-- Scan an attribute value: quoted with either quote character, or bare
up to whitespace or `>`; tolerant of a missing closing quote. -/
def scanAttrValue (cs : List Char) : String × List Char :=
  match cs with
  | [] => ("", [])
  | c :: rest =>
      if c = quoteChar || c = aposChar then
        let v := rest.takeWhile (fun ch => !(ch = c))
        (String.mk v, rest.drop (v.length + 1))
      else
        let v := (c :: rest).takeWhile (fun ch => !(isTagWS ch || ch = '>'))
        (String.mk v, (c :: rest).drop v.length)

/-- Record an attribute the way the tree builder's dict does: the first
occurrence fixes the position, the last occurrence fixes the value. -/
def insertAttr (acc : List (String × String)) (k v : String) : List (String × String) :=
  if acc.any (fun p => p.1 == k) then
    acc.map (fun p => if p.1 == k then (k, v) else p)
  else acc ++ [(k, v)]

/-- Scan the attribute list of a start tag up to `>` or `/>`; returns the
attributes, whether the tag was self-closing, and the rest of the input.
Tolerant at end of input. -/
def scanAttrs : Nat → List Char → List (String × String) → List (String × String) × Bool × List Char
  | 0, cs, acc => (acc, false, cs)
  | fuel + 1, cs, acc =>
      match cs with
      | [] => (acc, false, [])
      | '>' :: rest => (acc, false, rest)
      | '/' :: rest =>
          match rest with
          | '>' :: rest2 => (acc, true, rest2)
          | _ => scanAttrs fuel rest acc
      | c :: rest =>
          if isTagWS c then scanAttrs fuel rest acc
          else
            let aname := (c :: rest).takeWhile
              (fun ch => !(isTagWS ch || ch = '/' || ch = '>' || ch = '='))
            if aname.isEmpty then scanAttrs fuel rest acc
            else
              let cs2 := (c :: rest).drop aname.length
              match cs2.dropWhile isTagWS with
              | '=' :: cs4 =>
                  let (v, cs5) := scanAttrValue (cs4.dropWhile isTagWS)
                  scanAttrs fuel cs5 (insertAttr acc (strToLower (String.mk aname)) v)
              | _ => scanAttrs fuel cs2 (insertAttr acc (strToLower (String.mk aname)) "")

/-- Tokenize the input: text runs, start tags, end tags; comments and
declarations are skipped; a stray `<` is text. -/
def tokenizeAux : Nat → List Char → List Tok
  | 0, _ => []
  | fuel + 1, cs =>
      match cs with
      | [] => []
      | '<' :: rest =>
          match rest with
          | [] => [Tok.text "<"]
          | '/' :: r2 =>
              let (name, r3) := scanTagName r2
              let r4 := dropToGt r3
              if name.isEmpty then tokenizeAux fuel r4
              else Tok.stop (strToLower name) :: tokenizeAux fuel r4
          | '!' :: r2 =>
              match r2 with
              | '-' :: '-' :: r3 => tokenizeAux fuel (dropCommentEnd r3.length r3)
              | _ => tokenizeAux fuel (dropToGt r2)
          | c :: _ =>
              if c.isAlpha then
                let (name, r3) := scanTagName rest
                let (attrs, selfC, r4) := scanAttrs r3.length r3 []
                Tok.start (strToLower name) attrs selfC :: tokenizeAux fuel r4
              else Tok.text "<" :: tokenizeAux fuel rest
      | _ :: _ =>
          let t := cs.takeWhile (fun c => !(c = '<'))
          Tok.text (String.mk t) :: tokenizeAux fuel (cs.drop t.length)

/-- HTML void elements: they never take children, so the builder closes
them immediately. -/
def voidTags : List String :=
  ["area", "base", "br", "col", "embed", "hr", "img", "input",
   "link", "meta", "param", "source", "track", "wbr"]

/-- An open element under construction: name, attributes, children so far
in reverse order. -/
abbrev Frame := String × List (String × String) × List Node

/-- Finish an open element. -/
def closeFrame (f : Frame) : Node :=
  Node.element f.1 f.2.1 f.2.2.reverse

/-- Attach a finished node to the innermost open element, or to the
top level (accumulated in reverse). -/
def attachNode (node : Node) : List Frame → List Node → List Frame × List Node
  | [], acc => ([], node :: acc)
  | (n, a, cs) :: rest, acc => ((n, a, node :: cs) :: rest, acc)

/-- Close open elements until the one named `n` (inclusive) is closed. -/
def popThroughAux : Nat → String → List Frame → List Node → List Frame × List Node
  | 0, _, st, acc => (st, acc)
  | fuel + 1, n, st, acc =>
      match st with
      | [] => ([], acc)
      | f :: rest =>
          let r := attachNode (closeFrame f) rest acc
          if f.1 == n then r else popThroughAux fuel n r.1 r.2

/-- Close every still-open element at end of input (tolerance for
unclosed tags). -/
def popAllAux : Nat → List Frame → List Node → List Node
  | 0, _, acc => acc
  | fuel + 1, st, acc =>
      match st with
      | [] => acc
      | f :: rest =>
          let r := attachNode (closeFrame f) rest acc
          popAllAux fuel r.1 r.2

/-- Build the forest from the token stream with an open-element stack:
stray end tags are ignored, unclosed elements are closed at the end. -/
def buildAux : List Tok → List Frame → List Node → List Node
  | [], st, acc => (popAllAux st.length st acc).reverse
  | t :: ts, st, acc =>
      match t with
      | Tok.text s =>
          let r := attachNode (Node.text s) st acc
          buildAux ts r.1 r.2
      | Tok.start n a sc =>
          if sc || voidTags.contains n then
            let r := attachNode (Node.element n a []) st acc
            buildAux ts r.1 r.2
          else buildAux ts ((n, a, []) :: st) acc
      | Tok.stop n =>
          if st.any (fun f => f.1 == n) then
            let r := popThroughAux st.length n st acc
            buildAux ts r.1 r.2
          else buildAux ts st acc

/-- Modelled from the spec: `BeautifulSoup(html_content, "html.parser")`
as the total, tolerant parsing step of §4 step 1. -/
def parseHTML (s : String) : List Node :=
  buildAux (tokenizeAux (s.length + 1) s.toList) [] []

/-- `extract_test_elements(html_content)` (lines 7–46): parse, extract
the records, serialize. -/
def extract_test_elements (html_content : String) : String :=
  dumps (extractRecords (parseHTML html_content))

/-- The usage message printed when no argument is supplied (line 51). -/
def usageMessage : String :=
  "Usage: python extract_test_elements.py <path_to_html_file>"

/-- The error message printed when the path does not exist (line 57). -/
def missingFileMessage (p : String) : String :=
  "Error: File '" ++ p ++ "' does not exist."

/-- Outcome of one CLI invocation: the text printed to standard output
and the process exit status. -/
structure CLIResult where
  output : String
  exitCode : Nat
deriving DecidableEq

/-- The `__main__` block (lines 49–63) over an abstract filesystem `fs`
(path to contents, `none` when `os.path.exists` is false): fewer than two
entries in `argv` prints usage and exits 1; a missing path prints the
error naming it and exits 1; otherwise the extractor's output is printed
and the process exits 0. -/
def mainCLI (argv : List String) (fs : String → Option String) : CLIResult :=
  match argv with
  | _ :: p :: _ =>
      match fs p with
      | none => ⟨missingFileMessage p, 1⟩
      | some content => ⟨extract_test_elements content, 0⟩
  | _ => ⟨usageMessage, 1⟩

/-- Observer on records: the value stored under a key, if any (records
are association lists with pairwise-distinct keys). -/
def lookupField (r : List (String × String)) (k : String) : Option String :=
  (r.find? (fun p => p.1 == k)).map Prod.snd

/-- Scenario 1 of §8: a qualifying button with a `type` attribute and
visible text. -/
def sampleButton : Node :=
  Node.element "button" [("data-test-id", "e2e-submit"), ("type", "submit")] [Node.text "Send"]

/-- A one-element document holding `sampleButton`. -/
def sampleDoc : List Node := [sampleButton]

/-- The record the extractor produces for `sampleButton`. -/
def sampleRecord : List (String × String) :=
  [("test_id", "e2e-submit"), ("tag", "button"), ("type", "submit"), ("text", "Send")]

/-- Scenario 2 of §8: a qualifying input with an `id`. -/
def emailInput : Node :=
  Node.element "input" [("data-test-id", "e2e-email"), ("id", "email"), ("placeholder", "you@x.com")] []

/-- The associated label element. -/
def emailLabel : Node :=
  Node.element "label" [("for", "email")] [Node.text "Email"]

/-- The two-element document holding the input and its label. -/
def emailDoc : List Node := [emailInput, emailLabel]

/-- A qualifying input whose `id` attribute is present but empty. -/
def blankIdInput : Node :=
  Node.element "input" [("data-test-id", "e2e-a"), ("id", "")] []

/-- A label whose `for` attribute is the empty string, with non-empty text. -/
def blankIdLabel : Node :=
  Node.element "label" [("for", "")] [Node.text "X"]

/-- The document pairing `blankIdInput` with `blankIdLabel`. -/
def blankIdDoc : List Node := [blankIdInput, blankIdLabel]

/-! Helper lemmas. -/

/-- A value beginning with `e2e-` is in particular non-empty, so the
source's extra truthiness test on the attribute value is redundant. -/
theorem startsWith_e2e_isEmpty (v : String) (h : strStartsWith v "e2e-" = true) :
    v.isEmpty = false := by
  cases he : v.isEmpty
  · rfl
  · rw [(String.isEmpty_iff v).mp he] at h
    exact absurd h (by decide)

/-- The presence filter followed by the prefix guard is the same as
filtering by spec-side qualification and building one record per kept
element. -/
theorem filterLoop_eq (doc : List Node) (l : List Node) :
    (l.filter (fun el => (getAttr el "data-test-id").isSome)).filterMap
      (fun el => if codeQualifies el then some (buildRecord doc el) else none)
    = (l.filter specQualifies).map (buildRecord doc) := by
  induction l with
  | nil => rfl
  | cons a l ih =>
    cases hga : getAttr a "data-test-id" with
    | none =>
      have h1 : (getAttr a "data-test-id").isSome = false := by rw [hga]; rfl
      have h2 : specQualifies a = false := by unfold specQualifies; rw [hga]
      simp [List.filter_cons, h1, h2, ih]
    | some v =>
      have h1 : (getAttr a "data-test-id").isSome = true := by rw [hga]; rfl
      have hsq : specQualifies a = strStartsWith v "e2e-" := by unfold specQualifies; rw [hga]
      have hcq : codeQualifies a = (!v.isEmpty && strStartsWith v "e2e-") := by
        unfold codeQualifies; rw [hga]; rfl
      cases hsw : strStartsWith v "e2e-" with
      | true =>
        have hne := startsWith_e2e_isEmpty v hsw
        simp [List.filter_cons, List.filterMap_cons, h1, hsq, hsw, hcq, hne, ih]
      | false =>
        simp [List.filter_cons, List.filterMap_cons, h1, hsq, hsw, hcq, ih]

/-- The extraction loop, characterized: the qualifying elements in
document order, one record each. -/
theorem extractRecords_eq (doc : List Node) :
    extractRecords doc = ((elemsList doc).filter specQualifies).map (buildRecord doc) := by
  unfold extractRecords
  exact filterLoop_eq doc (elemsList doc)

/-- Field lookup distributes over record concatenation. -/
theorem lookupField_append (l1 l2 : List (String × String)) (k : String) :
    lookupField (l1 ++ l2) k = (lookupField l1 k).or (lookupField l2 k) := by
  unfold lookupField
  rw [List.find?_append]
  cases l1.find? (fun p => p.1 == k) <;> rfl

/-- Looking up the key of a conditional entry yields exactly the truthy
filtering of its source value. -/
theorem lookupField_optEntry_self (k : String) (v : Option String) :
    lookupField (optEntry k v) k = truthy v := by
  unfold optEntry
  cases truthy v with
  | none => rfl
  | some s =>
    unfold lookupField
    rw [List.find?_cons_of_pos _ (by simp)]
    rfl

/-- A conditional entry holds no other key. -/
theorem lookupField_optEntry_ne (k k2 : String) (v : Option String) (h : (k == k2) = false) :
    lookupField (optEntry k v) k2 = none := by
  unfold optEntry
  cases truthy v with
  | none => rfl
  | some s =>
    unfold lookupField
    rw [List.find?_cons_of_neg _ (by simp [h])]
    rfl

/-- A one-entry record holds no other key. -/
theorem lookupField_single_ne (k k2 val : String) (h : (k == k2) = false) :
    lookupField [(k, val)] k2 = none := by
  unfold lookupField
  rw [List.find?_cons_of_neg _ (by simp [h])]
  rfl

/-- A record entry headed by a different key does not affect lookup. -/
theorem lookupField_cons_ne (p : String × String) (l : List (String × String)) (k : String)
    (h : (p.1 == k) = false) : lookupField (p :: l) k = lookupField l k := by
  unfold lookupField
  rw [List.find?_cons_of_neg _ (by simp [h])]

/-- Membership in a conditional entry: the key is the entry's key, the
source value is exactly the stored one, and it is non-empty. -/
theorem optEntry_mem (k0 k v : String) (v0 : Option String)
    (h : (k, v) ∈ optEntry k0 v0) : k = k0 ∧ v0 = some v ∧ v.isEmpty = false := by
  cases v0 with
  | none => exact absurd h (List.not_mem_nil _)
  | some s0 =>
    by_cases hemp : s0.isEmpty = true
    · have ht : truthy (some s0) = none := by simp [truthy, hemp]
      simp [optEntry, ht] at h
    · have ht : truthy (some s0) = some s0 := by simp [truthy, hemp]
      simp [optEntry, ht, List.mem_singleton] at h
      obtain ⟨hk, hv⟩ := h
      subst hk
      subst hv
      refine ⟨rfl, rfl, ?_⟩
      simpa using hemp

/-- The keys contributed by a conditional entry form a sublist of the
singleton key. -/
theorem optEntry_keys_sub (k : String) (v : Option String) :
    ((optEntry k v).map Prod.fst).Sublist [k] := by
  unfold optEntry
  cases truthy v with
  | none => exact List.nil_sublist _
  | some s => exact List.Sublist.refl _

/-- The `type` entry of a record is the truthy filtering of the `type`
attribute. -/
theorem lookup_buildRecord_type (doc : List Node) (el : Node) :
    lookupField (buildRecord doc el) "type" = truthy (getAttr el "type") := by
  simp [buildRecord, lookupField_cons_ne, lookupField_append, lookupField_single_ne,
        lookupField_optEntry_ne, lookupField_optEntry_self]

/-- The `text` entry of a record is the truthy filtering of the stripped
text content. -/
theorem lookup_buildRecord_text (doc : List Node) (el : Node) :
    lookupField (buildRecord doc el) "text" = truthy (some (getTextStrip el)) := by
  simp [buildRecord, lookupField_cons_ne, lookupField_append, lookupField_single_ne,
        lookupField_optEntry_ne, lookupField_optEntry_self]

/-- The `aria_label` entry of a record is the truthy filtering of the
`aria-label` attribute. -/
theorem lookup_buildRecord_aria (doc : List Node) (el : Node) :
    lookupField (buildRecord doc el) "aria_label" = truthy (getAttr el "aria-label") := by
  simp [buildRecord, lookupField_cons_ne, lookupField_append, lookupField_single_ne,
        lookupField_optEntry_ne, lookupField_optEntry_self]

/-- The `placeholder` entry of a record is the truthy filtering of the
`placeholder` attribute. -/
theorem lookup_buildRecord_placeholder (doc : List Node) (el : Node) :
    lookupField (buildRecord doc el) "placeholder" = truthy (getAttr el "placeholder") := by
  simp [buildRecord, lookupField_cons_ne, lookupField_append, lookupField_single_ne,
        lookupField_optEntry_ne, lookupField_optEntry_self]

/-- The `label` entry of a record is the truthy filtering of the label
lookup's result. -/
theorem lookup_buildRecord_label (doc : List Node) (el : Node) :
    lookupField (buildRecord doc el) "label" = truthy (labelRaw doc el) := by
  simp [buildRecord, lookupField_cons_ne, lookupField_append, lookupField_single_ne,
        lookupField_optEntry_ne, lookupField_optEntry_self]

/-! The claims. -/

/-- Claim C1: for every element in the parsed document, a record is
produced if and only if the element carries the `data-test-id` attribute
with a value beginning with `e2e-`; elements without the attribute, with
an empty value (which cannot begin with `e2e-`), or with a value not
starting with `e2e-` contribute no record. -/
theorem filter_record_iff (doc : List Node) (r : List (String × String)) :
    r ∈ extractRecords doc
    ↔ ∃ el, el ∈ elemsList doc ∧ specQualifies el = true ∧ r = buildRecord doc el := by
  rw [extractRecords_eq]
  constructor
  · intro h
    obtain ⟨el, hel, hre⟩ := List.mem_map.mp h
    obtain ⟨hmem, hq⟩ := List.mem_filter.mp hel
    exact ⟨el, hmem, hq, hre.symm⟩
  · rintro ⟨el, hmem, hq, hre⟩
    exact List.mem_map.mpr ⟨el, List.mem_filter.mpr ⟨hmem, hq⟩, hre.symm⟩

/-- Claim C5: the output record sequence is exactly the map of the
record builder over the qualifying elements in document order — order is
preserved and nothing is deduplicated, so the number of records equals
the number of qualifying elements, identical `data-test-id` values
included. -/
theorem records_in_document_order (doc : List Node) :
    extractRecords doc = ((elemsList doc).filter specQualifies).map (buildRecord doc)
    ∧ (extractRecords doc).length = ((elemsList doc).filter specQualifies).length := by
  refine ⟨extractRecords_eq doc, ?_⟩
  rw [extractRecords_eq doc, List.length_map]

/-- Claim C6: with fewer than two `argv` entries the CLI prints the
usage message and exits with status 1; with a path the filesystem does
not know it prints an error that names the path (the message decomposes
around the path itself) and exits 1; otherwise it prints the Extractor's
output on the file's contents and exits 0. -/
theorem cli_behavior (fs : String → Option String) (prog p : String) (rest : List String) :
    mainCLI [] fs = ⟨usageMessage, 1⟩
    ∧ mainCLI [prog] fs = ⟨usageMessage, 1⟩
    ∧ mainCLI (prog :: p :: rest) fs =
        (match fs p with
         | none => ⟨missingFileMessage p, 1⟩
         | some content => ⟨extract_test_elements content, 0⟩)
    ∧ ∃ pre post, missingFileMessage p = pre ++ (p ++ post) := by
  refine ⟨rfl, rfl, rfl, "Error: File '", "' does not exist.", ?_⟩
  unfold missingFileMessage
  exact String.append_assoc _ _ _

/-- Claim C7: the Extractor is a total function of the input text — for
every string, malformed or not, it returns the serialization of some
(possibly empty) record collection built from the tolerant parse. -/
theorem extraction_total (s : String) :
    ∃ records, extract_test_elements s = dumps records :=
  ⟨extractRecords (parseHTML s), rfl⟩

/-- Claim C8: extraction is deterministic — two runs on identical input
text yield identical serialized output. -/
theorem extraction_deterministic (s t : String) (h : s = t) :
    extract_test_elements s = extract_test_elements t := by
  rw [h]

/-- Witness for C8 at a concrete input. -/
theorem extraction_deterministic_witness :
    ("<p data-test-id=\"e2e-a\">x</p>" : String) = "<p data-test-id=\"e2e-a\">x</p>"
    ∧ extract_test_elements "<p data-test-id=\"e2e-a\">x</p>"
        = extract_test_elements "<p data-test-id=\"e2e-a\">x</p>" :=
  ⟨rfl, extraction_deterministic _ _ rfl⟩

/-- Claim C10: whenever no element of the parse qualifies — in
particular on the empty string — the output is exactly the two-character
serialization `[]` of the empty collection. -/
theorem no_match_serializes_empty (s : String)
    (h : (elemsList (parseHTML s)).all (fun el => !specQualifies el) = true) :
    extract_test_elements s = "[]" := by
  have hfil : (elemsList (parseHTML s)).filter specQualifies = [] := by
    rw [List.filter_eq_nil_iff]
    intro a ha
    have h2 := List.all_eq_true.mp h a ha
    simp only [Bool.not_eq_true'] at h2
    simp [h2]
  unfold extract_test_elements
  rw [extractRecords_eq, hfil]
  rfl

/-- Witness for C10 at the empty input string. -/
theorem no_match_serializes_empty_witness :
    (elemsList (parseHTML "")).all (fun el => !specQualifies el) = true
    ∧ extract_test_elements "" = "[]" :=
  ⟨rfl, no_match_serializes_empty "" rfl⟩

/-- Claim C2: in every produced record each optional field holds exactly
the truthy filtering of its source value — present with that value when
the source is a non-empty string (after the required stripping), absent
otherwise — and no entry of the record ever stores an empty value. -/
theorem record_field_presence (doc : List Node) (el : Node) (hq : specQualifies el = true) :
    lookupField (buildRecord doc el) "type" = truthy (getAttr el "type")
    ∧ lookupField (buildRecord doc el) "text" = truthy (some (getTextStrip el))
    ∧ lookupField (buildRecord doc el) "aria_label" = truthy (getAttr el "aria-label")
    ∧ lookupField (buildRecord doc el) "placeholder" = truthy (getAttr el "placeholder")
    ∧ lookupField (buildRecord doc el) "label" = truthy (labelRaw doc el)
    ∧ ∀ k v, (k, v) ∈ buildRecord doc el → v.isEmpty = false := by
  refine ⟨lookup_buildRecord_type doc el, lookup_buildRecord_text doc el,
          lookup_buildRecord_aria doc el, lookup_buildRecord_placeholder doc el,
          lookup_buildRecord_label doc el, ?_⟩
  intro k v hv
  unfold buildRecord at hv
  simp only [List.singleton_append, List.mem_cons, List.mem_append] at hv
  rcases hv with ((((((h1 | h2) | h3) | h4) | h5) | h6) | h7)
  · have hv2 : v = (getAttr el "data-test-id").getD "" := congrArg Prod.snd h1
    subst hv2
    unfold specQualifies at hq
    cases hga : getAttr el "data-test-id" with
    | none => rw [hga] at hq; simp at hq
    | some w =>
      rw [hga] at hq
      simpa using startsWith_e2e_isEmpty w (by simpa using hq)
  · exact (optEntry_mem _ _ _ _ h2).2.2
  · exact (optEntry_mem _ _ _ _ h3).2.2
  · exact (optEntry_mem _ _ _ _ h4).2.2
  · exact (optEntry_mem _ _ _ _ h5).2.2
  · exact (optEntry_mem _ _ _ _ h6).2.2
  · exact (optEntry_mem _ _ _ _ h7).2.2

/-- Witness for C2 at the scenario-1 button. -/
theorem record_field_presence_witness :
    specQualifies sampleButton = true
    ∧ lookupField (buildRecord sampleDoc sampleButton) "type"
        = truthy (getAttr sampleButton "type") :=
  ⟨rfl, (record_field_presence sampleDoc sampleButton rfl).1⟩

/-- Counterexample to claim C3 as stated: `blankIdInput` qualifies and
carries an `id` attribute (the empty string), the first label whose
`for` attribute equals that id is `blankIdLabel` with non-empty stripped
text `X`, yet the record omits the `label` field — the code skips the
lookup for a falsy `id`, so "with an id attribute" is too wide. -/
theorem label_empty_id_cex :
    specQualifies blankIdInput = true
    ∧ getAttr blankIdInput "id" = some ""
    ∧ findLabelFor blankIdDoc "" = some blankIdLabel
    ∧ getTextStrip blankIdLabel = "X"
    ∧ lookupField (buildRecord blankIdDoc blankIdInput) "label" = none :=
  ⟨rfl, rfl, rfl, rfl, rfl⟩

/-- Claim C3 (amended: the element's `id` must be non-empty): for every
qualifying element with a non-empty `id` attribute, the `label` field
holds the stripped text of the first `<label>` anywhere in the document,
in document order, whose `for` equals that id — and is omitted when no
such label exists or when that first match's stripped text is empty. -/
theorem label_resolution_nonempty_id (doc : List Node) (el : Node) (i : String)
    (_hq : specQualifies el = true) (hid : getAttr el "id" = some i)
    (hne : i.isEmpty = false) :
    lookupField (buildRecord doc el) "label" =
      (match findLabelFor doc i with
       | some lab => truthy (some (getTextStrip lab))
       | none => none) := by
  have hlr : labelRaw doc el =
      (match findLabelFor doc i with
       | some lab => some (getTextStrip lab)
       | none => none) := by
    unfold labelRaw
    rw [hid]
    simp [hne]
  rw [lookup_buildRecord_label, hlr]
  cases findLabelFor doc i with
  | some lab => rfl
  | none => rfl

/-- Witness for the amended C3 at the scenario-2 input/label pair. -/
theorem label_resolution_witness :
    specQualifies emailInput = true
    ∧ getAttr emailInput "id" = some "email"
    ∧ ("email" : String).isEmpty = false
    ∧ lookupField (buildRecord emailDoc emailInput) "label" =
        (match findLabelFor emailDoc "email" with
         | some lab => truthy (some (getTextStrip lab))
         | none => none) :=
  ⟨rfl, rfl, rfl, label_resolution_nonempty_id emailDoc emailInput "email" rfl rfl rfl⟩

/-- Claim C9: a qualifying element whose `id` attribute is present but
empty gets no `label` field, whatever labels the document contains — in
particular even when a `<label for="">` with non-empty text exists, as
in the witness document. -/
theorem empty_id_omits_label (doc : List Node) (el : Node)
    (_hq : specQualifies el = true) (hid : getAttr el "id" = some "") :
    lookupField (buildRecord doc el) "label" = none := by
  have hlr : labelRaw doc el = none := by
    unfold labelRaw
    rw [hid]
    rfl
  rw [lookup_buildRecord_label, hlr]
  rfl

/-- Witness for C9: the blank-id document, which does contain a
`<label for="">` with non-empty text. -/
theorem empty_id_omits_label_witness :
    specQualifies blankIdInput = true
    ∧ getAttr blankIdInput "id" = some ""
    ∧ lookupField (buildRecord blankIdDoc blankIdInput) "label" = none :=
  ⟨rfl, rfl, empty_id_omits_label blankIdDoc blankIdInput rfl rfl⟩

/-- Claim C4: every record of the output owns at least the `test_id`
and `tag` fields (tag names coming out of the parser are non-empty), and
the record's key sequence — which the serializer renders in record
order — is a sublist of the fixed order test_id, tag, type, text,
aria_label, placeholder, label. -/
theorem record_shape_and_order (doc : List Node) (r : List (String × String))
    (hnames : (elemsList doc).all (fun el => !(Node.name el).isEmpty) = true)
    (hr : r ∈ extractRecords doc) :
    "test_id" ∈ r.map Prod.fst
    ∧ "tag" ∈ r.map Prod.fst
    ∧ (r.map Prod.fst).Sublist
        ["test_id", "tag", "type", "text", "aria_label", "placeholder", "label"] := by
  rw [extractRecords_eq] at hr
  obtain ⟨el, hel, hre⟩ := List.mem_map.mp hr
  obtain ⟨hmem, hq⟩ := List.mem_filter.mp hel
  have hname : (Node.name el).isEmpty = false := by
    have := List.all_eq_true.mp hnames el hmem
    simpa using this
  subst hre
  have htag : optEntry "tag" (some (Node.name el)) = [("tag", Node.name el)] := by
    simp [optEntry, truthy, hname]
  refine ⟨by simp [buildRecord], by simp [buildRecord, htag], ?_⟩
  have hb : (buildRecord doc el).map Prod.fst
      = ["test_id"] ++ ((optEntry "tag" (some (Node.name el))).map Prod.fst
        ++ ((optEntry "type" (getAttr el "type")).map Prod.fst
        ++ ((optEntry "text" (some (getTextStrip el))).map Prod.fst
        ++ ((optEntry "aria_label" (getAttr el "aria-label")).map Prod.fst
        ++ ((optEntry "placeholder" (getAttr el "placeholder")).map Prod.fst
        ++ (optEntry "label" (labelRaw doc el)).map Prod.fst))))) := by
    simp [buildRecord]
  rw [hb]
  exact List.Sublist.append (List.Sublist.refl _)
    (List.Sublist.append (optEntry_keys_sub _ _)
      (List.Sublist.append (optEntry_keys_sub _ _)
        (List.Sublist.append (optEntry_keys_sub _ _)
          (List.Sublist.append (optEntry_keys_sub _ _)
            (List.Sublist.append (optEntry_keys_sub _ _) (optEntry_keys_sub _ _))))))

/-- Witness for C4 at the scenario-1 document and its record. -/
theorem record_shape_witness :
    (elemsList sampleDoc).all (fun el => !(Node.name el).isEmpty) = true
    ∧ sampleRecord ∈ extractRecords sampleDoc
    ∧ ("test_id" ∈ sampleRecord.map Prod.fst
       ∧ "tag" ∈ sampleRecord.map Prod.fst
       ∧ (sampleRecord.map Prod.fst).Sublist
           ["test_id", "tag", "type", "text", "aria_label", "placeholder", "label"]) := by
  have hmem : sampleRecord ∈ extractRecords sampleDoc := by decide
  exact ⟨rfl, hmem, record_shape_and_order sampleDoc sampleRecord rfl hmem⟩

end Extract
